import Mathlib

/-!
Verification of the nested-JSON path-extraction core shared by
`get_google_search_result.py` (the inline loop of `preprocess_to_dataframe`)
and `get_gbiz_info.py` (`GbizInfoFetcher._get_value_safely`).

The embedding mirrors the Python source:
  * JSON-like values are a sum type; Python `None` is `JSON.null`.
  * `key.isdigit()` is `pyIsdigit` and `int(key)` is `pyInt`.  Python
    classifies a character as a digit when its Unicode `Numeric_Type` is
    `Decimal` or `Digit`, while `int()` accepts only `Decimal` characters:
    an isdigit-true segment such as a superscript makes `int()` raise
    `ValueError`.  `pyCharDecimal?` and `pyCharIsdigit` model this on a
    representative repertoire of Unicode ranges (ASCII, Arabic-Indic,
    Extended Arabic-Indic, Devanagari and fullwidth digits as decimal;
    the sub/superscript digits as digit-but-not-decimal); the remaining
    Unicode ranges behave exactly like one of these two classes.
  * `key_path.split('.')` is `splitDot`, `dict.get(key)` (default `None`)
    is `dictGet`.
  * The body of the `try:` block is `tryStep`; the exceptions it may raise
    are explicit, and the handler `except (KeyError, IndexError, TypeError)`
    is the `caught` filter inside `extractLoopE`.  An exception the handler
    does not name — in particular the `ValueError` from `int()` — surfaces
    as `Except.error` and propagates out of `extracted_row_loop` and
    `preprocess_loop`, exactly as it aborts the Python loops.
-/

set_option autoImplicit false

namespace LLMAssets

/-- JSON-like value, as received from `response.json()` / the Custom Search
API: Python `None`, `bool`, numbers, strings, `list`, `dict`. -/
inductive JSON where
  | null
  | bool (b : Bool)
  | num (n : Int)
  | str (s : String)
  | arr (elems : List JSON)
  | obj (fields : List (String × JSON))

/-- Python exceptions relevant to the `try`/`except` in
`preprocess_to_dataframe`.  The handler names `KeyError`, `IndexError`,
`TypeError`; the `ValueError` raised by `int()` is not caught. -/
inductive PyExc where
  | keyError
  | indexError
  | typeError
  | valueError
deriving DecidableEq

/-- The handler `except (KeyError, IndexError, TypeError)`. -/
def caught : PyExc → Bool
  | .keyError => true
  | .indexError => true
  | .typeError => true
  | .valueError => false

/-- The decimal value of a character for Python `int()`: characters of
Unicode `Numeric_Type=Decimal`.  Modelled ranges: ASCII `0-9`,
Arabic-Indic U+0660..U+0669, Extended Arabic-Indic U+06F0..U+06F9,
Devanagari U+0966..U+096F, fullwidth U+FF10..U+FF19; the other decimal
ranges of Unicode behave the same way. -/
def pyCharDecimal? (c : Char) : Option Nat :=
  if 48 ≤ c.toNat ∧ c.toNat ≤ 57 then some (c.toNat - 48)
  else if 0x660 ≤ c.toNat ∧ c.toNat ≤ 0x669 then some (c.toNat - 0x660)
  else if 0x6F0 ≤ c.toNat ∧ c.toNat ≤ 0x6F9 then some (c.toNat - 0x6F0)
  else if 0x966 ≤ c.toNat ∧ c.toNat ≤ 0x96F then some (c.toNat - 0x966)
  else if 0xFF10 ≤ c.toNat ∧ c.toNat ≤ 0xFF19 then some (c.toNat - 0xFF10)
  else none

/-- Python `c.isdigit()` for one character: `Numeric_Type` `Decimal` or
`Digit`.  The `Digit`-but-not-`Decimal` class is modelled by the
superscripts U+00B9, U+00B2, U+00B3 and the sub/superscript blocks
U+2070..U+2079 and U+2080..U+2089; `int()` rejects all of them. -/
def pyCharIsdigit (c : Char) : Bool :=
  (pyCharDecimal? c).isSome
  || c.toNat == 0xB2 || c.toNat == 0xB3 || c.toNat == 0xB9
  || (0x2070 ≤ c.toNat && c.toNat ≤ 0x2079)
  || (0x2080 ≤ c.toNat && c.toNat ≤ 0x2089)

/-- Python `key.isdigit()`: non-empty and every character a digit. -/
def pyIsdigit (s : String) : Bool :=
  !s.toList.isEmpty && s.toList.all pyCharIsdigit

/-- Helper for `pyInt`: accumulate decimal digits left to right; a
character without a decimal value makes `int()` raise `ValueError`. -/
def pyIntAux : List Char → Nat → Except PyExc Nat
  | [], n => .ok n
  | c :: cs, n =>
    match pyCharDecimal? c with
    | some d => pyIntAux cs (10 * n + d)
    | none => .error .valueError

/-- Python `int(key)` on an isdigit-true key: the decimal value when every
character is a decimal digit, `ValueError` otherwise (e.g. on the
superscript digits, which `isdigit` accepts but `int()` rejects). -/
def pyInt (s : String) : Except PyExc Nat :=
  pyIntAux s.toList 0

/-- Every character of the segment has a decimal value, so `int()` cannot
raise on it. -/
def decimalSegment (s : String) : Bool :=
  s.toList.all (fun c => (pyCharDecimal? c).isSome)

/-- Python `key_path.split('.')` on the list of characters: `acc` holds the
characters of the current segment in reverse. -/
def splitDotAux : List Char → List Char → List String
  | [], acc => [String.mk acc.reverse]
  | c :: cs, acc =>
    if c = '.' then String.mk acc.reverse :: splitDotAux cs []
    else splitDotAux cs (c :: acc)

/-- Python `key_path.split('.')`: always at least one segment, empty
segments between consecutive dots, `"".split('.') == [""]`. -/
def splitDot (s : String) : List String :=
  splitDotAux s.toList []

/-- A key path on which extraction cannot raise: every segment that Python
classifies as digits consists of decimal digits only.  Every ASCII path is
safe. -/
def safePath (kp : String) : Bool :=
  (splitDot kp).all (fun seg => !pyIsdigit seg || decimalSegment seg)

/-- Python `value.get(key)` for a `dict` value: the bound value if the key
is present, else `None` (keys of a Python dict are unique, so first match
suffices). -/
def dictGet (fields : List (String × JSON)) (key : String) : JSON :=
  match fields with
  | [] => .null
  | kv :: rest => if kv.1 == key then kv.2 else dictGet rest key

/-- The body of the `try:` block of `preprocess_to_dataframe` for one
segment `key` against the cursor `value`:

    if key.isdigit() and isinstance(value, list):
        value = value[int(key)]          -- int() may raise ValueError,
                                         -- indexing may raise IndexError
    elif isinstance(value, dict):
        value = value.get(key)
    else:
        value = None
        break

`ok (some v)` continues the loop with cursor `v`; `ok none` is the
`value = None; break` branch; `error` is a raised exception. -/
def tryStep (value : JSON) (key : String) : Except PyExc (Option JSON) :=
  match value with
  | .arr elems =>
    if pyIsdigit key then
      match pyInt key with
      | .ok n =>
        match elems[n]? with
        | some x => .ok (some x)
        | none => .error .indexError
      | .error e => .error e
    else .ok none
  | .obj fields => .ok (some (dictGet fields key))
  | _ => .ok none

/-- The `for key in keys:` loop of `preprocess_to_dataframe`, with the
exception handler `except (KeyError, IndexError, TypeError): value = None;
break` applied around each step.  An exception the handler does not name —
the `ValueError` of `int()` — propagates as `Except.error`. -/
def extractLoopE (value : JSON) (keys : List String) : Except PyExc JSON :=
  match keys with
  | [] => .ok value
  | key :: rest =>
    match tryStep value key with
    | .ok (some v) => extractLoopE v rest
    | .ok none => .ok .null
    | .error e => if caught e then .ok .null else .error e

/-- One full extraction of `preprocess_to_dataframe`: split the dotted
`key_path`, then run the traversal loop from the item. -/
def extractValue (item : JSON) (key_path : String) : Except PyExc JSON :=
  extractLoopE item (splitDot key_path)

/-- `GbizInfoFetcher._get_value_safely`: walk `keys`; a non-dict cursor
returns `None` immediately, a dict cursor advances with `dict.get`. -/
def get_value_safely (data : JSON) (keys : List String) : JSON :=
  match keys with
  | [] => data
  | key :: rest =>
    match data with
    | .obj fields => get_value_safely (dictGet fields key) rest
    | _ => .null

/-- Python dict assignment `row[k] = v`: overwrite in place if `k` is
already a key (insertion order kept), else append. -/
def dictInsert (row : List (String × JSON)) (k : String) (v : JSON) :
    List (String × JSON) :=
  if row.any (fun kv => kv.1 == k) then
    row.map (fun kv => if kv.1 == k then (k, v) else kv)
  else
    row ++ [(k, v)]

/-- The inner loop of `preprocess_to_dataframe` building `extracted_row`:
`extracted_row = {}`, then `extracted_row[key_path] = value` for each
`key_path` in `keys_to_extract`.  An uncaught exception raised while
extracting a value aborts the loop and propagates. -/
def extracted_row_loop (item : JSON) :
    List String → List (String × JSON) → Except PyExc (List (String × JSON))
  | [], row => .ok row
  | kp :: rest, row =>
    match extractValue item kp with
    | .ok v => extracted_row_loop item rest (dictInsert row kp v)
    | .error e => .error e

/-- `extracted_row` for one item, started from the empty dict. -/
def extracted_row (item : JSON) (keys_to_extract : List String) :
    Except PyExc (List (String × JSON)) :=
  extracted_row_loop item keys_to_extract []

/-- The outer loop of `preprocess_to_dataframe`: `processed_data = []`,
then `processed_data.append(extracted_row)` per item.  An uncaught
exception from any item aborts the whole batch. -/
def preprocess_loop (keys : List String) :
    List JSON → List (List (String × JSON)) →
    Except PyExc (List (List (String × JSON)))
  | [], acc => .ok acc
  | item :: rest, acc =>
    match extracted_row item keys with
    | .ok row => preprocess_loop keys rest (acc ++ [row])
    | .error e => .error e

/-- `preprocess_to_dataframe` up to the `pd.DataFrame` constructor: the
list `processed_data` of extracted rows, one per search-result item, in
input order — or the uncaught exception that aborted the batch. -/
def preprocess_to_dataframe (search_results : List JSON)
    (keys_to_extract : List String) :
    Except PyExc (List (List (String × JSON))) :=
  preprocess_loop keys_to_extract search_results []

/-- The value `extracted_row[key_path]` receives when extraction returns
normally; for a safe path the `error` branch is unreachable (certified by
the theorems below, which equate `extractValue` with `ok` of this). -/
def storedValue (item : JSON) (kp : String) : JSON :=
  match extractValue item kp with
  | .ok v => v
  | .error _ => JSON.null

/-! ### Helper lemmas shared across the claim theorems -/

/-- A `None` cursor traverses every remaining segment list to `None`: the
first further segment hits the `else: value = None; break` branch. -/
theorem extractLoopE_null_cursor (keys : List String) :
    extractLoopE JSON.null keys = .ok .null := by
  cases keys <;> rfl

/-- Same for `_get_value_safely`: a `None` cursor yields `None`. -/
theorem get_value_safely_null (keys : List String) :
    get_value_safely JSON.null keys = .null := by
  cases keys <;> rfl

/-- Unfolding equation for one iteration of the traversal loop. -/
theorem extractLoopE_cons (value : JSON) (key : String) (rest : List String) :
    extractLoopE value (key :: rest) =
      match tryStep value key with
      | .ok (some v) => extractLoopE v rest
      | .ok none => .ok .null
      | .error e => if caught e then .ok .null else .error e := rfl

/-- Unfolding equation for one iteration of the row loop. -/
theorem extracted_row_loop_cons (item : JSON) (kp : String)
    (rest : List String) (row : List (String × JSON)) :
    extracted_row_loop item (kp :: rest) row =
      match extractValue item kp with
      | .ok v => extracted_row_loop item rest (dictInsert row kp v)
      | .error e => .error e := rfl

/-- Unfolding equation for one iteration of the batch loop. -/
theorem preprocess_loop_cons (keys : List String) (item : JSON)
    (items : List JSON) (acc : List (List (String × JSON))) :
    preprocess_loop keys (item :: items) acc =
      match extracted_row item keys with
      | .ok row => preprocess_loop keys items (acc ++ [row])
      | .error e => .error e := rfl

/-- `dict.get` on a missing key is `None`. -/
theorem dictGet_not_mem {fields : List (String × JSON)} {key : String}
    (h : ∀ kv ∈ fields, kv.1 ≠ key) : dictGet fields key = .null := by
  induction fields with
  | nil => rfl
  | cons kv rest ih =>
    unfold dictGet
    have hne : (kv.1 == key) = false := by
      exact beq_eq_false_iff_ne.mpr (h kv (List.mem_cons_self kv rest))
    simp only [hne, if_false]
    exact ih (fun kv2 h2 => h kv2 (List.mem_cons_of_mem kv h2))

/-- `int()` returns normally on a list of decimal digits. -/
theorem pyIntAux_ok :
    ∀ (cs : List Char) (m : Nat),
      (∀ c ∈ cs, (pyCharDecimal? c).isSome = true) →
      ∃ n, pyIntAux cs m = .ok n := by
  intro cs
  induction cs with
  | nil =>
    intro m _
    exact ⟨m, rfl⟩
  | cons c cs ih =>
    intro m h
    have hc := h c (List.mem_cons_self c cs)
    obtain ⟨d, hd⟩ := Option.isSome_iff_exists.mp hc
    have hstep : pyIntAux (c :: cs) m = pyIntAux cs (10 * m + d) := by
      simp only [pyIntAux, hd]
    rw [hstep]
    exact ih (10 * m + d) (fun c2 h2 => h c2 (List.mem_cons_of_mem c h2))

/-- `int()` returns normally on a decimal-digit segment. -/
theorem pyInt_ok_of_decimal {s : String} (h : decimalSegment s = true) :
    ∃ n, pyInt s = .ok n :=
  pyIntAux_ok s.toList 0 (fun c hc => (List.all_eq_true.mp h) c hc)

/-- Reading off the safety of every segment of a safe path. -/
theorem safePath_spec {p : String} (h : safePath p = true) :
    ∀ seg ∈ splitDot p, pyIsdigit seg = true → decimalSegment seg = true := by
  intro seg hseg hd
  have hall := (List.all_eq_true.mp h) seg hseg
  simpa [hd] using hall

/-- On a digit segment of decimal digits, the only exception the `try:`
body can raise is `IndexError`. -/
theorem tryStep_error_caught {v : JSON} {key : String} {e : PyExc}
    (h : tryStep v key = .error e)
    (hsafe : pyIsdigit key = true → decimalSegment key = true) :
    e = .indexError := by
  cases v with
  | arr elems =>
    by_cases hd : pyIsdigit key
    · obtain ⟨n, hn⟩ := pyInt_ok_of_decimal (hsafe hd)
      unfold tryStep at h
      simp only [hd, if_true, hn] at h
      cases hg : elems[n]? with
      | some x => rw [hg] at h; simp at h
      | none => rw [hg] at h; simp at h; exact h.symm
    · unfold tryStep at h
      simp [hd] at h
  | null => simp [tryStep] at h
  | bool b => simp [tryStep] at h
  | num n => simp [tryStep] at h
  | str s => simp [tryStep] at h
  | obj fields => simp [tryStep] at h

/-- On segment lists whose digit segments are decimal, the handler catches
everything the loop body can raise. -/
theorem extractLoopE_safe_ok :
    ∀ (segs : List String) (v : JSON),
      (∀ seg ∈ segs, pyIsdigit seg = true → decimalSegment seg = true) →
      ∃ r, extractLoopE v segs = .ok r := by
  intro segs
  induction segs with
  | nil =>
    intro v _
    exact ⟨v, rfl⟩
  | cons key rest ih =>
    intro v hs
    cases h : tryStep v key with
    | ok o =>
      cases o with
      | some w =>
        obtain ⟨r, hr⟩ := ih w (fun seg hseg => hs seg (List.mem_cons_of_mem key hseg))
        exact ⟨r, by rw [extractLoopE_cons, h]; exact hr⟩
      | none => exact ⟨.null, by rw [extractLoopE_cons, h]⟩
    | error e =>
      have he : e = .indexError :=
        tryStep_error_caught h (hs key (List.mem_cons_self key rest))
      subst he
      exact ⟨.null, by rw [extractLoopE_cons, h]; rfl⟩

/-- An out-of-bounds decimal index raises `IndexError`, which the handler
turns into `None` with a `break`. -/
theorem extractLoopE_arr_oob {elems : List JSON} {key : String} {n : Nat}
    (rest : List String) (hd : pyIsdigit key = true) (hn : pyInt key = .ok n)
    (hg : elems[n]? = none) :
    extractLoopE (.arr elems) (key :: rest) = .ok .null := by
  have htry : tryStep (.arr elems) key = .error .indexError := by
    unfold tryStep
    simp [hd, hn, hg]
  rw [extractLoopE_cons, htry]
  rfl

/-- Assigning a key not yet present in the row appends it, keeping
insertion order. -/
theorem dictInsert_fresh (row : List (String × JSON)) (k : String)
    (v : JSON) (h : ∀ kv ∈ row, kv.1 ≠ k) :
    dictInsert row k v = row ++ [(k, v)] := by
  have hany : row.any (fun kv => kv.1 == k) = false := by
    rw [List.any_eq_false]
    intro kv hkv
    simpa using h kv hkv
  simp [dictInsert, hany]

/-- Folding dict assignments of distinct, safe, fresh keys over a row
appends one entry per key, in key order, and never raises. -/
theorem extracted_row_loop_safe (item : JSON) :
    ∀ (keys : List String) (row : List (String × JSON)),
      (∀ kp ∈ keys, safePath kp = true) → keys.Nodup →
      (∀ kv ∈ row, kv.1 ∉ keys) →
      extracted_row_loop item keys row
        = .ok (row ++ keys.map (fun kp => (kp, storedValue item kp))) := by
  intro keys
  induction keys with
  | nil =>
    intro row _ _ _
    simp [extracted_row_loop]
  | cons kp ks ih =>
    intro row hs hnd hrow
    have hex : extractValue item kp = .ok (storedValue item kp) := by
      obtain ⟨r, hr⟩ := extractLoopE_safe_ok (splitDot kp) item
        (safePath_spec (hs kp (List.mem_cons_self kp ks)))
      have hr2 : extractValue item kp = .ok r := hr
      rw [hr2]
      unfold storedValue
      rw [hr2]
    rw [extracted_row_loop_cons, hex]
    show extracted_row_loop item ks (dictInsert row kp (storedValue item kp))
      = Except.ok (row ++ (kp :: ks).map (fun kp => (kp, storedValue item kp)))
    rw [dictInsert_fresh row kp (storedValue item kp)
      (fun kv hkv hk => hrow kv hkv (hk ▸ List.mem_cons_self kp ks))]
    rw [ih (row ++ [(kp, storedValue item kp)])
      (fun q hq => hs q (List.mem_cons_of_mem kp hq))
      (List.nodup_cons.mp hnd).2 ?_]
    · simp
    · intro kv hkv
      rcases List.mem_append.mp hkv with h1 | h2
      · intro hm
        exact hrow kv h1 (List.mem_cons_of_mem kp hm)
      · have hkv2 : kv = (kp, storedValue item kp) := by simpa using h2
        rw [hkv2]
        exact (List.nodup_cons.mp hnd).1

/-- With safe, distinct key paths the batch loop appends exactly one row
per item, in item order, and never raises. -/
theorem preprocess_loop_safe (keys : List String)
    (hs : ∀ kp ∈ keys, safePath kp = true) (hnd : keys.Nodup) :
    ∀ (items : List JSON) (acc : List (List (String × JSON))),
      preprocess_loop keys items acc
        = .ok (acc ++ items.map (fun item =>
            keys.map (fun kp => (kp, storedValue item kp)))) := by
  intro items
  induction items with
  | nil =>
    intro acc
    simp [preprocess_loop]
  | cons item items ih =>
    intro acc
    rw [preprocess_loop_cons]
    have hrow : extracted_row item keys
        = .ok (keys.map (fun kp => (kp, storedValue item kp))) := by
      have h := extracted_row_loop_safe item keys [] hs hnd
        (by intro kv hkv; cases hkv)
      simpa [extracted_row] using h
    rw [hrow]
    show preprocess_loop keys items (acc ++ [keys.map (fun kp => (kp, storedValue item kp))])
      = Except.ok (acc ++ (item :: items).map (fun item =>
          keys.map (fun kp => (kp, storedValue item kp))))
    rw [ih (acc ++ [keys.map (fun kp => (kp, storedValue item kp))])]
    simp

example :
    extractValue (JSON.obj [("a", JSON.obj [("b", JSON.arr [.num 10, .num 20, .num 30])])])
      "a.b.1" = Except.ok (JSON.num 20) := by rfl

example :
    extractValue (JSON.obj [("a", JSON.obj [("b", JSON.arr [.num 10, .num 20, .num 30])])])
      "a.b.5" = Except.ok JSON.null := by rfl

example : splitDot "" = [""] := by rfl

example : splitDot "a..b" = ["a", "", "b"] := by rfl

example :
    extractValue
      (JSON.arr [.num 0, .num 1, .num 2, .num 3, .num 4, .num 5]) "٥"
      = Except.ok (JSON.num 5) := by rfl

/-! ### Claim theorems -/

/-- C1, counterexample: a path that resolves to a stored JSON null and a
path whose key is missing produce the very same result, `Except.ok
JSON.null` — the absence marker is the null value itself, not a dedicated
sentinel, so the caller cannot distinguish the two.  The same holds for
`_get_value_safely`. -/
theorem c1_counterexample_null_conflated :
    extractValue (JSON.obj [("a", JSON.null)]) "a" = extractValue (JSON.obj []) "a" ∧
    extractValue (JSON.obj [("a", JSON.null)]) "a" = Except.ok JSON.null ∧
    get_value_safely (JSON.obj [("a", JSON.null)]) ["a"]
      = get_value_safely (JSON.obj []) ["a"] :=
  ⟨rfl, rfl, rfl⟩

/-- C1, amended: for a single mapping-key segment the extraction result is
exactly `dict.get` with default null, so a resolved JSON null and a missing
key both come back as null: the code reuses null (Python `None`) as its
absence marker and the caller cannot distinguish a resolved null from
absence. -/
theorem c1_absent_marker_is_null :
    (∀ (fields : List (String × JSON)) (key : String),
      extractLoopE (.obj fields) [key] = .ok (dictGet fields key)) ∧
    dictGet [("a", JSON.null)] "a" = JSON.null ∧
    dictGet [] "a" = JSON.null ∧
    (∀ (fields : List (String × JSON)) (key : String),
      get_value_safely (.obj fields) [key] = dictGet fields key) ∧
    extractValue (JSON.obj [("a", JSON.null)]) "a" = extractValue (JSON.obj []) "a" :=
  ⟨fun _ _ => rfl, rfl, rfl, fun _ _ => rfl, rfl⟩

/-- C2, counterexample: the segment "²" is isdigit-true, so a sequence
cursor routes it to `int()`, which raises `ValueError` — an exception the
handler does not name — and extraction raises instead of returning a value
or the absence marker. -/
theorem c2_counterexample_value_error :
    pyIsdigit "²" = true ∧
    caught PyExc.valueError = false ∧
    extractValue (JSON.arr [JSON.num 10]) "²" = Except.error PyExc.valueError :=
  ⟨rfl, rfl, rfl⟩

/-- C2, amended: extraction never raises and yields a resolved value or
the absence marker for every (value, path) pair whose digit-classified
segments are decimal — in particular for every ASCII path — and a decimal
digit segment indexing a sequence out of bounds yields absent, not an
error. -/
theorem c2_extract_total_amended :
    (∀ (v : JSON) (p : String), safePath p = true →
      ∃ r, extractValue v p = Except.ok r) ∧
    (∀ (elems : List JSON) (key : String) (n : Nat) (rest : List String),
      pyIsdigit key = true → pyInt key = .ok n → elems.length ≤ n →
      extractLoopE (.arr elems) (key :: rest) = .ok .null) := by
  constructor
  · intro v p hp
    exact extractLoopE_safe_ok (splitDot p) v (safePath_spec hp)
  · intro elems key n rest hd hn hlen
    exact extractLoopE_arr_oob rest hd hn (List.getElem?_eq_none hlen)

theorem c2_extract_total_amended_witness :
    (∃ r, extractValue (JSON.obj []) "a.0" = Except.ok r) ∧
    extractLoopE (.arr []) ["0"] = .ok .null :=
  ⟨c2_extract_total_amended.1 (JSON.obj []) "a.0" (by decide),
   c2_extract_total_amended.2 [] "0" 0 [] rfl rfl (by decide)⟩

/-- C3: segment-interpretation precedence — a digit segment is an index
only when the cursor is a sequence (a decimal one in bounds advances to
that element); on a mapping every segment, digit-only included, is a
`dict.get` lookup; and on a scalar or null cursor the step yields absent. -/
theorem c3_segment_precedence :
    (∀ (elems : List JSON) (key : String) (n : Nat) (rest : List String) (x : JSON),
      pyIsdigit key = true → pyInt key = .ok n → elems[n]? = some x →
      extractLoopE (.arr elems) (key :: rest) = extractLoopE x rest) ∧
    (∀ (fields : List (String × JSON)) (key : String) (rest : List String),
      extractLoopE (.obj fields) (key :: rest) = extractLoopE (dictGet fields key) rest) ∧
    (∀ (key : String) (rest : List String),
      extractLoopE JSON.null (key :: rest) = .ok .null) ∧
    (∀ (b : Bool) (key : String) (rest : List String),
      extractLoopE (.bool b) (key :: rest) = .ok .null) ∧
    (∀ (n : Int) (key : String) (rest : List String),
      extractLoopE (.num n) (key :: rest) = .ok .null) ∧
    (∀ (s : String) (key : String) (rest : List String),
      extractLoopE (.str s) (key :: rest) = .ok .null) := by
  refine ⟨?_, fun _ _ _ => rfl, fun _ _ => rfl, fun _ _ _ => rfl,
    fun _ _ _ => rfl, fun _ _ _ => rfl⟩
  intro elems key n rest x hd hn hg
  have htry : tryStep (.arr elems) key = .ok (some x) := by
    unfold tryStep
    simp [hd, hn, hg]
  rw [extractLoopE_cons, htry]

theorem c3_segment_precedence_witness :
    extractLoopE (.arr [JSON.num 7]) ["0", "z"] = extractLoopE (JSON.num 7) ["z"] :=
  c3_segment_precedence.1 [JSON.num 7] "0" 0 ["z"] (JSON.num 7) rfl rfl rfl

/-- C4: in-bounds indexing resolves to the addressed element and
out-of-bounds indexing yields absent, on the spec examples. -/
theorem c4_index_examples :
    extractValue (JSON.obj [("a", JSON.obj [("b", JSON.arr [.num 10, .num 20, .num 30])])])
      "a.b.1" = Except.ok (JSON.num 20) ∧
    extractValue (JSON.obj [("a", JSON.obj [("b", JSON.arr [.num 10, .num 20, .num 30])])])
      "a.b.5" = Except.ok JSON.null :=
  ⟨rfl, rfl⟩

/-- C5: on the first failing segment — missing mapping key, out-of-bounds
index, or a cursor on which the step breaks — the whole path yields absent
whatever the remaining segments are (the result is independent of `rest`,
so no further traversal can be observed), and the spec example holds; the
same short-circuit holds for `_get_value_safely`. -/
theorem c5_first_failure_absent :
    (∀ (fields : List (String × JSON)) (key : String) (rest : List String),
      (∀ kv ∈ fields, kv.1 ≠ key) →
      extractLoopE (.obj fields) (key :: rest) = .ok .null) ∧
    (∀ (elems : List JSON) (key : String) (n : Nat) (rest : List String),
      pyIsdigit key = true → pyInt key = .ok n → elems[n]? = none →
      extractLoopE (.arr elems) (key :: rest) = .ok .null) ∧
    (∀ (v : JSON) (key : String) (rest : List String),
      tryStep v key = .ok none → extractLoopE v (key :: rest) = .ok .null) ∧
    extractValue (JSON.obj [("a", JSON.obj [("b", JSON.num 1)])]) "a.c.d"
      = .ok JSON.null ∧
    (∀ (fields : List (String × JSON)) (key : String) (rest : List String),
      (∀ kv ∈ fields, kv.1 ≠ key) →
      get_value_safely (.obj fields) (key :: rest) = .null) := by
  refine ⟨?_, ?_, ?_, rfl, ?_⟩
  · intro fields key rest h
    have hstep : extractLoopE (.obj fields) (key :: rest)
        = extractLoopE (dictGet fields key) rest := rfl
    rw [hstep, dictGet_not_mem h, extractLoopE_null_cursor]
  · intro elems key n rest hd hn hg
    exact extractLoopE_arr_oob rest hd hn hg
  · intro v key rest h
    rw [extractLoopE_cons, h]
  · intro fields key rest h
    have hstep : get_value_safely (.obj fields) (key :: rest)
        = get_value_safely (dictGet fields key) rest := rfl
    rw [hstep, dictGet_not_mem h, get_value_safely_null]

theorem c5_first_failure_absent_witness :
    extractLoopE (.obj [("b", JSON.num 1)]) ["c", "d"] = .ok .null ∧
    extractLoopE (.arr [JSON.num 10]) ["3", "d"] = .ok .null ∧
    extractLoopE (JSON.str "s") ["c", "d"] = .ok .null ∧
    get_value_safely (.obj [("b", JSON.num 1)]) ["c", "d"] = .null :=
  ⟨c5_first_failure_absent.1 [("b", JSON.num 1)] "c" ["d"] (by decide),
   c5_first_failure_absent.2.1 [JSON.num 10] "3" 3 ["d"] rfl rfl rfl,
   c5_first_failure_absent.2.2.1 (JSON.str "s") "c" ["d"] rfl,
   c5_first_failure_absent.2.2.2.2 [("b", JSON.num 1)] "c" ["d"] (by decide)⟩

/-- C6, counterexample: the single path "²" against a single list-valued
item makes the batch raise the uncaught `ValueError` of `int()` — the item
aborts the whole operation and no records are produced, instead of one
record per item. -/
theorem c6_counterexample_batch_aborts :
    preprocess_to_dataframe [JSON.arr [JSON.num 10]] ["²"]
      = Except.error PyExc.valueError :=
  rfl

/-- C6, amended: for every list of items and every ordered list of
distinct paths whose digit-classified segments are decimal (e.g. every
ASCII path), the batch succeeds with exactly one record per input item in
item order, each record being exactly one entry per path in path order,
the stored value being the (possibly absent) extraction result. -/
theorem c6_table_shape_amended :
    (∀ (items : List JSON) (keys : List String),
      (∀ kp ∈ keys, safePath kp = true) → keys.Nodup →
      preprocess_to_dataframe items keys
        = Except.ok (items.map (fun item =>
            keys.map (fun kp => (kp, storedValue item kp))))) ∧
    (∀ (item : JSON) (kp : String), safePath kp = true →
      extractValue item kp = Except.ok (storedValue item kp)) ∧
    preprocess_to_dataframe [JSON.obj [("x", JSON.num 1)], JSON.obj []] ["x"]
      = Except.ok [[("x", JSON.num 1)], [("x", JSON.null)]] := by
  refine ⟨?_, ?_, rfl⟩
  · intro items keys hs hnd
    have h := preprocess_loop_safe keys hs hnd items []
    simpa [preprocess_to_dataframe] using h
  · intro item kp h
    obtain ⟨r, hr⟩ := extractLoopE_safe_ok (splitDot kp) item (safePath_spec h)
    have hr2 : extractValue item kp = .ok r := hr
    rw [hr2]
    unfold storedValue
    rw [hr2]

theorem c6_table_shape_amended_witness :
    preprocess_to_dataframe [JSON.obj []] ["x", "y"]
      = Except.ok ([JSON.obj []].map (fun item =>
          ["x", "y"].map (fun kp => (kp, storedValue item kp)))) ∧
    extractValue (JSON.obj []) "x" = Except.ok (storedValue (JSON.obj []) "x") :=
  ⟨c6_table_shape_amended.1 [JSON.obj []] ["x", "y"] (by decide) (by decide),
   c6_table_shape_amended.2.1 (JSON.obj []) "x" (by decide)⟩

/-- C7: extraction is deterministic — two calls on equal (value, path)
inputs return equal results; the embedding is purely functional over its
arguments, with no other state in scope. -/
theorem c7_deterministic :
    ∀ (v w : JSON) (p q : String), v = w → p = q → extractValue v p = extractValue w q := by
  intro v w p q hv hp
  rw [hv, hp]

theorem c7_deterministic_witness :
    extractValue (JSON.obj [("a", JSON.num 1)]) "a"
      = extractValue (JSON.obj [("a", JSON.num 1)]) "a" :=
  c7_deterministic (JSON.obj [("a", JSON.num 1)]) (JSON.obj [("a", JSON.num 1)])
    "a" "a" rfl rfl

/-- C8: `_get_value_safely` applied to an empty key list returns its input
unchanged — the loop body never runs and the final `return data` fires. -/
theorem c8_empty_keys_identity :
    ∀ (data : JSON), get_value_safely data [] = data :=
  fun _ => rfl

/-- C9: a segment that is not isdigit-true — one containing any character
Python does not classify as a digit, such as the minus sign of "-1" —
applied to a sequence cursor is never interpreted as an index: the step
falls through to the `else` branch and the whole path yields absent, so no
element can be addressed relative to the end. -/
theorem c9_no_negative_indexing :
    (∀ (elems : List JSON) (key : String) (rest : List String),
      pyIsdigit key = false →
      extractLoopE (.arr elems) (key :: rest) = .ok .null) ∧
    extractValue (JSON.arr [.num 10, .num 20]) "-1" = .ok JSON.null := by
  constructor
  · intro elems key rest hd
    have htry : tryStep (.arr elems) key = .ok none := by
      unfold tryStep
      simp [hd]
    rw [extractLoopE_cons, htry]
  · rfl

theorem c9_no_negative_indexing_witness :
    extractLoopE (.arr [JSON.num 10, JSON.num 20]) ["-1"] = .ok .null :=
  c9_no_negative_indexing.1 [JSON.num 10, JSON.num 20] "-1" [] rfl

/-- C10: no path validation at the boundary — the empty path splits to one
empty segment, consecutive dots produce empty segments, and empty segments
are looked up as ordinary mapping keys: an empty key present in the
mapping resolves, a missing one degrades to absent, never an error. -/
theorem c10_no_path_validation :
    splitDot "" = [""] ∧
    extractValue (JSON.obj [("", JSON.num 1)]) "" = Except.ok (JSON.num 1) ∧
    splitDot "a..b" = ["a", "", "b"] ∧
    extractValue (JSON.obj [("a", JSON.obj [("b", JSON.num 1)])]) "a..b"
      = Except.ok JSON.null ∧
    (∀ (fields : List (String × JSON)) (rest : List String),
      (∀ kv ∈ fields, kv.1 ≠ "") →
      extractLoopE (.obj fields) ("" :: rest) = .ok .null) := by
  refine ⟨rfl, rfl, rfl, rfl, ?_⟩
  intro fields rest h
  have hstep : extractLoopE (.obj fields) ("" :: rest)
      = extractLoopE (dictGet fields "") rest := rfl
  rw [hstep, dictGet_not_mem h, extractLoopE_null_cursor]

theorem c10_no_path_validation_witness :
    extractLoopE (.obj [("a", JSON.num 1)]) ["", "b"] = .ok .null :=
  c10_no_path_validation.2.2.2.2 [("a", JSON.num 1)] ["b"] (by decide)

end LLMAssets
